import Mathlib

/-!
Shallow embedding of the CineAI data-acquisition and persisted-list layer:
src/lib/movieStorage.ts, src/lib/tmdb.ts and src/lib/recommendations.ts.
JavaScript numbers are modelled as rationals, JSON documents as an explicit
JSON value type, and the browser localStorage cell as an optional JSON value
(JSON.stringify and JSON.parse form a faithful bijection between such values
and serialized text, so the text layer is elided).
-/

/-- JSON value, modelling the documents exchanged through JSON.stringify and
JSON.parse in movieStorage.ts. -/
inductive JVal where
  | jnull : JVal
  | jbool : Bool → JVal
  | jstr : String → JVal
  | jnum : ℚ → JVal
  | jarr : List JVal → JVal
  | jobj : List (String × JVal) → JVal

/-- Reading a JSON value as a string, as untyped access in the source does. -/
def JVal.asStr : JVal → Option String
  | JVal.jstr s => some s
  | _ => none

/-- Reading a JSON value as a number. -/
def JVal.asNum : JVal → Option ℚ
  | JVal.jnum q => some q
  | _ => none

/-- Reading a JSON value as an array. -/
def JVal.asArr : JVal → Option (List JVal)
  | JVal.jarr xs => some xs
  | _ => none

/-- JavaScript truthiness of a JSON value (objects and arrays are always
truthy, null is falsy, the empty string and zero are falsy). -/
def JVal.truthy : JVal → Bool
  | JVal.jnull => false
  | JVal.jbool b => b
  | JVal.jstr s => !(s == "")
  | JVal.jnum q => !(q == 0)
  | JVal.jarr _ => true
  | JVal.jobj _ => true

/-- Field lookup in a JSON object field list. -/
def lookupField : List (String × JVal) → String → Option JVal
  | [], _ => none
  | (k2, v) :: rest, k => if k2 == k then some v else lookupField rest k

/-- Property access on a JSON value: on non-objects access yields undefined
(modelled as none), as in JavaScript. -/
def getField : JVal → String → Option JVal
  | JVal.jobj fields, k => lookupField fields k
  | _, _ => none

/-- StoredMovie from src/lib/movieStorage.ts. The rating field is optional
because the untyped createStoredMovie can leave it undefined at runtime. -/
structure StoredMovie where
  id : String
  title : String
  year : Option ℚ
  genre : Option String
  poster : Option String
  rating : Option ℚ
  dateAdded : String
  dateWatched : Option String
deriving DecidableEq

/-- MovieLists from src/lib/movieStorage.ts. -/
structure MovieLists where
  myList : List StoredMovie
  watchedList : List StoredMovie
  blockedMovies : List String
deriving DecidableEq

/-- MovieStorage from src/lib/movieStorage.ts. -/
structure MovieStorage where
  lists : MovieLists
  embeddingProfile : List ℚ
  version : String
deriving DecidableEq

/-- STORAGE_VERSION constant from src/lib/movieStorage.ts. -/
def STORAGE_VERSION : String := "2.0"

/-- getDefaultStorage from src/lib/movieStorage.ts. -/
def getDefaultStorage : MovieStorage :=
  { lists := { myList := [], watchedList := [], blockedMovies := [] }
    embeddingProfile := []
    version := STORAGE_VERSION }

/-- A JSON object field that is omitted when the value is undefined, as
JSON.stringify drops undefined properties. -/
def encodeOptField (k : String) : Option JVal → List (String × JVal)
  | some v => [(k, v)]
  | none => []

/-- JSON encoding of a StoredMovie: the shape JSON.stringify produces for the
object literals built in movieStorage.ts. -/
def encodeStoredMovie (m : StoredMovie) : JVal :=
  JVal.jobj ([("id", JVal.jstr m.id), ("title", JVal.jstr m.title)]
    ++ encodeOptField "year" (m.year.map JVal.jnum)
    ++ encodeOptField "genre" (m.genre.map JVal.jstr)
    ++ encodeOptField "poster" (m.poster.map JVal.jstr)
    ++ encodeOptField "rating" (m.rating.map JVal.jnum)
    ++ [("dateAdded", JVal.jstr m.dateAdded)]
    ++ encodeOptField "dateWatched" (m.dateWatched.map JVal.jstr))

/-- JSON encoding of the whole MovieStorage record. -/
def encodeStorage (s : MovieStorage) : JVal :=
  JVal.jobj
    [("lists", JVal.jobj
       [("myList", JVal.jarr (s.lists.myList.map encodeStoredMovie)),
        ("watchedList", JVal.jarr (s.lists.watchedList.map encodeStoredMovie)),
        ("blockedMovies", JVal.jarr (s.lists.blockedMovies.map JVal.jstr))]),
     ("embeddingProfile", JVal.jarr (s.embeddingProfile.map JVal.jnum)),
     ("version", JVal.jstr s.version)]

/-- Typed reading of a serialized StoredMovie, the inverse of
encodeStoredMovie on well-formed records. -/
def decodeStoredMovie (j : JVal) : Option StoredMovie :=
  match (getField j "id").bind JVal.asStr, (getField j "title").bind JVal.asStr,
      (getField j "dateAdded").bind JVal.asStr with
  | some id, some title, some dateAdded =>
    some { id := id, title := title
           year := (getField j "year").bind JVal.asNum
           genre := (getField j "genre").bind JVal.asStr
           poster := (getField j "poster").bind JVal.asStr
           rating := (getField j "rating").bind JVal.asNum
           dateAdded := dateAdded
           dateWatched := (getField j "dateWatched").bind JVal.asStr }
  | _, _, _ => none

/-- Typed reading of a serialized StoredMovie array. -/
def decodeMovieList : List JVal → Option (List StoredMovie)
  | [] => some []
  | j :: js =>
    match decodeStoredMovie j, decodeMovieList js with
    | some m, some ms => some (m :: ms)
    | _, _ => none

/-- Typed reading of a serialized string array. -/
def decodeStrList : List JVal → Option (List String)
  | [] => some []
  | j :: js =>
    match j.asStr, decodeStrList js with
    | some s, some ss => some (s :: ss)
    | _, _ => none

/-- Typed reading of a serialized number array. -/
def decodeNumList : List JVal → Option (List ℚ)
  | [] => some []
  | j :: js =>
    match j.asNum, decodeNumList js with
    | some q, some qs => some (q :: qs)
    | _, _ => none

/-- Typed reading of a serialized MovieStorage record, the inverse of
encodeStorage on well-formed records (the source reads the parsed object
without validation; records outside this shape are not expressible in the
typed model and fall back to the default store in loadMovieData). -/
def decodeStorage (j : JVal) : Option MovieStorage :=
  match getField j "lists", (getField j "embeddingProfile").bind JVal.asArr,
      (getField j "version").bind JVal.asStr with
  | some jl, some jprof, some ver =>
    match (getField jl "myList").bind JVal.asArr,
        (getField jl "watchedList").bind JVal.asArr,
        (getField jl "blockedMovies").bind JVal.asArr with
    | some jmy, some jw, some jb =>
      match decodeMovieList jmy, decodeMovieList jw, decodeStrList jb,
          decodeNumList jprof with
      | some my, some w, some b, some p =>
        some { lists := { myList := my, watchedList := w, blockedMovies := b }
               embeddingProfile := p, version := ver }
      | _, _, _, _ => none
    | _, _, _ => none
  | _, _, _ => none

/-- Loosely shaped per-movie legacy record handed to migration (untyped in the
source; dateAdded may be absent). -/
structure OldMovie where
  id : String
  title : String
  year : Option ℚ
  genre : Option String
  poster : Option String
  rating : Option ℚ
  dateAdded : Option String
deriving DecidableEq

/-- Legacy lists object: each list field may be absent; an array-valued field
is always truthy in JavaScript, so presence is what the source tests. -/
structure OldLists where
  myList : Option (List OldMovie)
  watchedList : Option (List OldMovie)
  blockedMovies : Option (List String)
  wantToWatch : Option (List OldMovie)
  watched : Option (List OldMovie)
  blocked : Option (List String)
deriving DecidableEq

/-- Legacy top-level record handed to migrateFromOldVersion. -/
structure OldData where
  lists : Option OldLists
deriving DecidableEq

/-- The per-movie mapping applied by migrateFromOldVersion in
src/lib/movieStorage.ts: copies the listed fields, drops dateWatched, and
defaults a falsy dateAdded to the current time. -/
def oldToStored (now : String) (m : OldMovie) : StoredMovie :=
  { id := m.id, title := m.title, year := m.year, genre := m.genre
    poster := m.poster, rating := m.rating
    dateAdded :=
      match m.dateAdded with
      | some s => if s == "" then now else s
      | none => now
    dateWatched := none }

/-- migrateFromOldVersion from src/lib/movieStorage.ts: builds a fresh default
store, copies current-name fields when present, then copies legacy-name
fields (wantToWatch, watched, blocked) when present, in that order, so a
legacy-name field overwrites its current-name counterpart. -/
def migrateFromOldVersion (oldData : OldData) (now : String) : MovieStorage :=
  match oldData.lists with
  | none => getDefaultStorage
  | some l =>
    let my1 := match l.myList with
      | some ms => ms.map (oldToStored now)
      | none => getDefaultStorage.lists.myList
    let w1 := match l.watchedList with
      | some ms => ms.map (oldToStored now)
      | none => getDefaultStorage.lists.watchedList
    let b1 := match l.blockedMovies with
      | some bs => bs
      | none => getDefaultStorage.lists.blockedMovies
    let my2 := match l.wantToWatch with
      | some ms => ms.map (oldToStored now)
      | none => my1
    let w2 := match l.watched with
      | some ms => ms.map (oldToStored now)
      | none => w1
    let b2 := match l.blocked with
      | some bs => bs
      | none => b1
    { lists := { myList := my2, watchedList := w2, blockedMovies := b2 }
      embeddingProfile := []
      version := STORAGE_VERSION }

/-- Duck-typed reading of a legacy per-movie record; fields that are not of
the expected primitive type read as absent. -/
def decodeOldMovie (j : JVal) : OldMovie :=
  { id := ((getField j "id").bind JVal.asStr).getD ""
    title := ((getField j "title").bind JVal.asStr).getD ""
    year := (getField j "year").bind JVal.asNum
    genre := (getField j "genre").bind JVal.asStr
    poster := (getField j "poster").bind JVal.asStr
    rating := (getField j "rating").bind JVal.asNum
    dateAdded := (getField j "dateAdded").bind JVal.asStr }

/-- Duck-typed reading of one legacy movie-list field: the source guards each
copy with a truthiness test on the field. -/
def readOldMovieListField (j : JVal) (k : String) : Option (List OldMovie) :=
  match getField j k with
  | some v => if v.truthy then (v.asArr).map (fun xs => xs.map decodeOldMovie) else none
  | none => none

/-- Duck-typed reading of one legacy string-list field. -/
def readOldStrListField (j : JVal) (k : String) : Option (List String) :=
  match getField j k with
  | some v =>
    if v.truthy then (v.asArr).map (fun xs => xs.map (fun x => (x.asStr).getD ""))
    else none
  | none => none

/-- Duck-typed reading of the whole legacy record handed to migration. -/
def decodeOldData (j : JVal) : OldData :=
  { lists :=
      match getField j "lists" with
      | some v =>
        if v.truthy then
          some
            { myList := readOldMovieListField v "myList"
              watchedList := readOldMovieListField v "watchedList"
              blockedMovies := readOldStrListField v "blockedMovies"
              wantToWatch := readOldMovieListField v "wantToWatch"
              watched := readOldMovieListField v "watched"
              blocked := readOldStrListField v "blocked" }
        else none
      | none => none }

/-- The single device-local storage cell holding the serialized store. -/
abbrev Cell := Option JVal

/-- loadMovieData from src/lib/movieStorage.ts: absent or unreadable data
yields the default store; a version mismatch runs migration; otherwise the
parsed record is returned. The now argument models the ambient clock used by
migration for defaulted timestamps. -/
def loadMovieData (now : String) (cell : Cell) : MovieStorage :=
  match cell with
  | none => getDefaultStorage
  | some j =>
    if ((getField j "version").bind JVal.asStr) != some STORAGE_VERSION then
      migrateFromOldVersion (decodeOldData j) now
    else
      (decodeStorage j).getD getDefaultStorage

/-- saveMovieData from src/lib/movieStorage.ts: serializes and overwrites the
cell wholesale, returning true; the false branch covers storage write
failures (quota) outside this model of a healthy browser store. -/
def saveMovieData (data : MovieStorage) : Bool × Cell :=
  (true, some (encodeStorage data))

/-- Loosely shaped input accepted by createStoredMovie (tolerant of either
posterUrl or poster and either userRating or rating). -/
structure MovieData where
  id : String
  title : String
  year : Option ℚ
  genre : Option String
  posterUrl : Option String
  poster : Option String
  userRating : Option ℚ
  rating : Option ℚ
deriving DecidableEq

/-- JavaScript a || b on two possibly-undefined strings (the empty string is
falsy). -/
def jsOrString (a b : Option String) : Option String :=
  match a with
  | some s => if s == "" then b else some s
  | none => b

/-- JavaScript a || b on two possibly-undefined numbers (zero is falsy). -/
def jsOrNum (a b : Option ℚ) : Option ℚ :=
  match a with
  | some q => if q == 0 then b else some q
  | none => b

/-- createStoredMovie from src/lib/movieStorage.ts: rating prefers the user
rating over the movie rating via JavaScript truthy-or. -/
def createStoredMovie (movieData : MovieData) (now : String) : StoredMovie :=
  { id := movieData.id
    title := movieData.title
    year := movieData.year
    genre := movieData.genre
    poster := jsOrString movieData.posterUrl movieData.poster
    rating := jsOrNum movieData.userRating movieData.rating
    dateAdded := now
    dateWatched := none }

/-- Replace the first element satisfying p, modelling
list[list.findIndex(p)] = a when findIndex succeeds. -/
def replaceFirstMatching (p : StoredMovie → Bool) (a : StoredMovie) :
    List StoredMovie → List StoredMovie
  | [] => []
  | x :: xs => if p x then a :: xs else x :: replaceFirstMatching p a xs

/-- Remove the first element satisfying p, modelling splice(findIndex(p), 1)
when findIndex succeeds. -/
def removeFirstMatching (p : StoredMovie → Bool) :
    List StoredMovie → List StoredMovie
  | [] => []
  | x :: xs => if p x then xs else x :: removeFirstMatching p xs

/-- addToMyList from src/lib/movieStorage.ts: pushes the movie onto myList
and re-saves only when its id is present in neither list. -/
def addToMyList (movieData : MovieData) (now : String) (cell : Cell) :
    MovieStorage × Cell :=
  let storage := loadMovieData now cell
  let movie := createStoredMovie movieData now
  if !(storage.lists.myList.any (fun m => m.id == movie.id))
      && !(storage.lists.watchedList.any (fun m => m.id == movie.id)) then
    let storage2 :=
      { storage with lists :=
          { storage.lists with myList := storage.lists.myList ++ [movie] } }
    (storage2, (saveMovieData storage2).2)
  else
    (storage, cell)

/-- addToWantToWatchList from src/lib/movieStorage.ts: identical body to
addToMyList. -/
def addToWantToWatchList (movieData : MovieData) (now : String) (cell : Cell) :
    MovieStorage × Cell :=
  let storage := loadMovieData now cell
  let movie := createStoredMovie movieData now
  if !(storage.lists.myList.any (fun m => m.id == movie.id))
      && !(storage.lists.watchedList.any (fun m => m.id == movie.id)) then
    let storage2 :=
      { storage with lists :=
          { storage.lists with myList := storage.lists.myList ++ [movie] } }
    (storage2, (saveMovieData storage2).2)
  else
    (storage, cell)

/-- addToWatchedList from src/lib/movieStorage.ts: stamps dateWatched,
removes the id from myList, then replaces an existing watchedList entry of
the same id in place or adds the movie at the front; always re-saves.
findIndex plus assignment is modelled by replaceFirstMatching guarded by an
existence test. -/
def addToWatchedList (movieData : MovieData) (now : String) (cell : Cell) :
    MovieStorage × Cell :=
  let storage := loadMovieData now cell
  let movie0 := createStoredMovie movieData now
  let movie := { movie0 with dateWatched := some now }
  let myList2 := storage.lists.myList.filter (fun m => !(m.id == movie.id))
  let watched2 :=
    if storage.lists.watchedList.any (fun m => m.id == movie.id) then
      replaceFirstMatching (fun m => m.id == movie.id) movie
        storage.lists.watchedList
    else
      movie :: storage.lists.watchedList
  let storage2 :=
    { storage with lists :=
        { storage.lists with myList := myList2, watchedList := watched2 } }
  (storage2, (saveMovieData storage2).2)

/-- The two list names accepted by removeFromList. -/
inductive ListType where
  | myList : ListType
  | watchedList : ListType
deriving DecidableEq

/-- removeFromList from src/lib/movieStorage.ts: unconditional filter-out of
the id from the named list; always re-saves. -/
def removeFromList (movieId : String) (listType : ListType) (now : String)
    (cell : Cell) : MovieStorage × Cell :=
  let storage := loadMovieData now cell
  let storage2 :=
    match listType with
    | ListType.myList =>
      { storage with lists :=
          { storage.lists with
              myList := storage.lists.myList.filter (fun m => !(m.id == movieId)) } }
    | ListType.watchedList =>
      { storage with lists :=
          { storage.lists with
              watchedList :=
                storage.lists.watchedList.filter (fun m => !(m.id == movieId)) } }
  (storage2, (saveMovieData storage2).2)

/-- moveToMyList from src/lib/movieStorage.ts: when the id is found in
watchedList, removes that entry (splice at findIndex, modelled as removal of
the first match) and pushes it onto myList with a fresh dateAdded; no-op
otherwise. -/
def moveToMyList (movieId : String) (now : String) (cell : Cell) :
    MovieStorage × Cell :=
  let storage := loadMovieData now cell
  match storage.lists.watchedList.find? (fun m => m.id == movieId) with
  | some movie =>
    let watched2 :=
      removeFirstMatching (fun m => m.id == movieId) storage.lists.watchedList
    let myList2 := storage.lists.myList ++ [{ movie with dateAdded := now }]
    let storage2 :=
      { storage with lists :=
          { storage.lists with myList := myList2, watchedList := watched2 } }
    (storage2, (saveMovieData storage2).2)
  | none => (storage, cell)

/-- moveToWantToWatchList from src/lib/movieStorage.ts: identical body to
moveToMyList. -/
def moveToWantToWatchList (movieId : String) (now : String) (cell : Cell) :
    MovieStorage × Cell :=
  let storage := loadMovieData now cell
  match storage.lists.watchedList.find? (fun m => m.id == movieId) with
  | some movie =>
    let watched2 :=
      removeFirstMatching (fun m => m.id == movieId) storage.lists.watchedList
    let myList2 := storage.lists.myList ++ [{ movie with dateAdded := now }]
    let storage2 :=
      { storage with lists :=
          { storage.lists with myList := myList2, watchedList := watched2 } }
    (storage2, (saveMovieData storage2).2)
  | none => (storage, cell)

/-- reorderMyList from src/lib/movieStorage.ts: replaces myList wholesale
with the caller-supplied array; always re-saves. -/
def reorderMyList (newOrder : List StoredMovie) (now : String) (cell : Cell) :
    MovieStorage × Cell :=
  let storage := loadMovieData now cell
  let storage2 := { storage with lists := { storage.lists with myList := newOrder } }
  (storage2, (saveMovieData storage2).2)

/-- blockMovie from src/lib/movieStorage.ts: idempotent set-insert into
blockedMovies; saves only when the id was absent. -/
def blockMovie (movieId : String) (now : String) (cell : Cell) :
    MovieStorage × Cell :=
  let storage := loadMovieData now cell
  if !(storage.lists.blockedMovies.contains movieId) then
    let storage2 :=
      { storage with lists :=
          { storage.lists with
              blockedMovies := storage.lists.blockedMovies ++ [movieId] } }
    (storage2, (saveMovieData storage2).2)
  else
    (storage, cell)

/-- exportData from src/lib/movieStorage.ts: loads and serializes the full
store. -/
def exportData (now : String) (cell : Cell) : JVal :=
  encodeStorage (loadMovieData now cell)

/-- importData from src/lib/movieStorage.ts: parses the backup and saves it
wholesale; parsing a well-formed JSON document always succeeds, and
saveMovieData writes the parsed value back, so the model returns true and
stores the document (the false branch corresponds to invalid JSON text,
outside the JVal model). -/
def importData (jsonData : JVal) : Bool × Cell :=
  (true, some jsonData)

/-- One call of a public mutator of the Persisted List Store, together with
the ambient clock value at call time. -/
inductive Op where
  | addMy : MovieData → String → Op
  | addWant : MovieData → String → Op
  | addWatched : MovieData → String → Op
  | removeFrom : String → ListType → String → Op
  | moveMy : String → String → Op
  | moveWant : String → String → Op
  | reorder : List StoredMovie → String → Op
  | block : String → String → Op

/-- The mutators quantified over by the two-list exclusivity property:
addToList in its three forms, removeFromList and moveToMyList. -/
def Op.isC1 : Op → Bool
  | Op.addMy _ _ => true
  | Op.addWant _ _ => true
  | Op.addWatched _ _ => true
  | Op.removeFrom _ _ _ => true
  | Op.moveMy _ _ => true
  | _ => false

/-- Dispatch one mutator call against the storage cell. -/
def applyOp : Op → Cell → MovieStorage × Cell
  | Op.addMy md now, cell => addToMyList md now cell
  | Op.addWant md now, cell => addToWantToWatchList md now cell
  | Op.addWatched md now, cell => addToWatchedList md now cell
  | Op.removeFrom movieId lt now, cell => removeFromList movieId lt now cell
  | Op.moveMy movieId now, cell => moveToMyList movieId now cell
  | Op.moveWant movieId now, cell => moveToWantToWatchList movieId now cell
  | Op.reorder newOrder now, cell => reorderMyList newOrder now cell
  | Op.block movieId now, cell => blockMovie movieId now cell

/-- Run a finite sequence of mutator calls against the storage cell. -/
def runOps : List Op → Cell → Cell
  | [], cell => cell
  | o :: os, cell => runOps os (applyOp o cell).2

/-- The ids stored in a list, in order. -/
def idsOf (l : List StoredMovie) : List String :=
  l.map (fun m => m.id)

/-- Structural store invariant maintained by the C1 mutators: both movie
lists are duplicate-free, share no id, and the version tag is current. -/
def Good (s : MovieStorage) : Prop :=
  (idsOf s.lists.myList).Nodup ∧ (idsOf s.lists.watchedList).Nodup ∧
    (∀ i ∈ idsOf s.lists.myList, i ∉ idsOf s.lists.watchedList) ∧
    s.version = STORAGE_VERSION

/-- Cell-level counterpart of Good: the cell is empty or holds the encoding
of a Good store. -/
def GoodCell (cell : Cell) : Prop :=
  cell = none ∨ ∃ s, cell = some (encodeStorage s) ∧ Good s

/-- Weaker cell invariant preserved by every mutator: the cell is empty or
holds the encoding of a store tagged with the current version. -/
def VCell (cell : Cell) : Prop :=
  cell = none ∨ ∃ s, cell = some (encodeStorage s) ∧ s.version = STORAGE_VERSION

/-- retryDelay from RETRY_CONFIG in src/lib/tmdb.ts (milliseconds). -/
def retryDelay : Nat := 500

/-- maxRetries from RETRY_CONFIG in src/lib/tmdb.ts. -/
def maxRetries : Nat := 2

/-- fetchTimeout from RETRY_CONFIG in src/lib/tmdb.ts (milliseconds). -/
def fetchTimeout : Nat := 5000

/-- Outcome of one fetch attempt inside fetchWithRetry. A timeout means the
5-second timer fired and aborted the request through the AbortController the
function created for this attempt, so the rejection carries
controller.signal.aborted = true; a network error or a non-success HTTP
status leaves the signal unaborted. -/
inductive FetchOutcome where
  | ok : Nat → FetchOutcome
  | httpErr : Nat → FetchOutcome
  | netErr : FetchOutcome
  | timeout : FetchOutcome
deriving DecidableEq

/-- Whether the attempt failed (threw in the source). -/
def isFailure : FetchOutcome → Bool
  | FetchOutcome.ok _ => false
  | _ => true

/-- Whether controller.signal.aborted is true in the catch block for this
failure: only the timeout abort sets it. -/
def isAbortedFailure : FetchOutcome → Bool
  | FetchOutcome.timeout => true
  | _ => false

/-- fetchWithRetry from src/lib/tmdb.ts over an oracle giving the outcome of
each successive attempt (index i). Returns the surfaced result together with
the list of backoff delays slept, in order. On a failure it retries only when
retries remain and the signal was not aborted, sleeping retryDelay first. -/
def fetchWithRetry (attempts : Nat → FetchOutcome) (i : Nat) :
    Nat → Except FetchOutcome Nat × List Nat
  | 0 =>
    match attempts i with
    | FetchOutcome.ok r => (Except.ok r, [])
    | e => (Except.error e, [])
  | Nat.succ retries =>
    match attempts i with
    | FetchOutcome.ok r => (Except.ok r, [])
    | e =>
      if isAbortedFailure e then
        (Except.error e, [])
      else
        let t := fetchWithRetry attempts (i + 1) retries
        (t.1, retryDelay :: t.2)

/-- TMDBMovie from src/lib/tmdb.ts. -/
structure TMDBMovie where
  id : Int
  title : String
  overview : String
  poster_path : Option String
  backdrop_path : Option String
  release_date : String
  vote_average : ℚ
  vote_count : Nat
  genre_ids : List Nat
deriving DecidableEq

/-- The hardcoded last-resort fallback list in loadFallbackMovies in
src/lib/tmdb.ts. -/
def hardcodedFallback : List TMDBMovie :=
  [{ id := 550, title := "Fight Club"
     overview := "A ticking-time-bomb insomniac and a slippery soap salesman channel primal male aggression into a shocking new form of therapy."
     poster_path := some "/pB8BM7pdSp6B6Ih7QZ4DrQ3PmJK.jpg"
     backdrop_path := none
     release_date := "1999-10-15"
     vote_average := 8.4, vote_count := 26280, genre_ids := [18, 53] },
   { id := 278, title := "The Shawshank Redemption"
     overview := "Framed in the 1940s for the double murder of his wife and her lover, upstanding banker Andy Dufresne begins a new life at the Shawshank prison."
     poster_path := some "/q6y0Go1tsGEsmtFryDOJo3dEmqu.jpg"
     backdrop_path := none
     release_date := "1994-09-23"
     vote_average := 8.7, vote_count := 24916, genre_ids := [18, 80] }]

/-- Environment of one getRecommendations run: whether TMDB_API_KEY is
configured and the outcome of each provider call and of the bundled fallback
asset fetch. Each tier endpoint is consulted at most once per run, so a
single outcome per endpoint suffices; a similar-movies lookup is keyed by the
parsed movie id (none models NaN). An error covers a thrown fetch, a
non-success status or malformed JSON. -/
structure TMDBEnv where
  hasApiKey : Bool
  popularResult : Except Unit (List TMDBMovie)
  trendingResult : Except Unit (List TMDBMovie)
  similarResult : Option Int → Except Unit (List TMDBMovie)
  fallbackFetch : Except Unit (List TMDBMovie)

/-- loadFallbackMovies from src/lib/tmdb.ts with the module-level cache made
explicit: returns the cached list if present, otherwise the fetched bundled
dataset (with string ids already coerced to numbers), otherwise the
hardcoded list; the returned list is cached in every case. Never throws. -/
def loadFallbackMovies (env : TMDBEnv) (cache : Option (List TMDBMovie)) :
    List TMDBMovie × Option (List TMDBMovie) :=
  match cache with
  | some ms => (ms, some ms)
  | none =>
    match env.fallbackFetch with
    | Except.ok ms => (ms, some ms)
    | Except.error _ => (hardcodedFallback, some hardcodedFallback)

/-- The longest leading run of decimal digits. -/
def leadingDigits : List Char → List Char
  | [] => []
  | c :: cs => if c.isDigit then c :: leadingDigits cs else []

/-- Numeric value of a digit run. -/
def digitsToNat (ds : List Char) : Nat :=
  ds.foldl (fun a c => a * 10 + (c.toNat - 48)) 0

/-- Leading whitespace removal, as parseInt ignores leading whitespace. -/
def skipSpaces : List Char → List Char
  | [] => []
  | c :: cs =>
    if c = ' ' ∨ c = '\t' ∨ c = '\n' ∨ c = '\r' then skipSpaces cs else c :: cs

/-- JavaScript parseInt on a string: skips whitespace, takes an optional
sign and leading digits; none models NaN (no digits). -/
def parseIntJS (s : String) : Option Int :=
  match skipSpaces s.toList with
  | '-' :: rest =>
    match leadingDigits rest with
    | [] => none
    | ds => some (-(digitsToNat ds : Int))
  | '+' :: rest =>
    match leadingDigits rest with
    | [] => none
    | ds => some ((digitsToNat ds : Int))
  | l =>
    match leadingDigits l with
    | [] => none
    | ds => some ((digitsToNat ds : Int))

/-- The exclusion id set of getRecommendations: watched ids then blocked ids,
each coerced with parseInt. -/
def excludeIdsOf (excludeWatchedIds excludeBlockedIds : List String) :
    List (Option Int) :=
  (excludeWatchedIds ++ excludeBlockedIds).map parseIntJS

/-- Membership of a movie id in the exclusion set
(excludeIds.includes(movie.id); a NaN entry never equals a numeric id). -/
def isExcluded (excludeIds : List (Option Int)) (m : TMDBMovie) : Bool :=
  excludeIds.contains (some m.id)

/-- Tiers A and B of getRecommendations: one page of popular listings (a
failure is logged and yields nothing), then one page of trending only if
fewer than 15 movies accumulated. Returns the accumulator and the number of
provider calls issued. -/
def tierAB (env : TMDBEnv) : List TMDBMovie × Nat :=
  let recs1 :=
    match env.popularResult with
    | Except.ok rs => rs
    | Except.error _ => []
  if recs1.length < 15 then
    match env.trendingResult with
    | Except.ok rs => (recs1 ++ rs, 2)
    | Except.error _ => (recs1, 2)
  else
    (recs1, 1)

/-- Tier C inner loop of getRecommendations: for each recently watched movie
id, fetch similar movies and append up to 5 of them, stopping once the
accumulator reaches 25; a failed lookup is skipped. -/
def similarLoop (env : TMDBEnv) :
    List String → List TMDBMovie → Nat → List TMDBMovie × Nat
  | [], recs, calls => (recs, calls)
  | movieId :: rest, recs, calls =>
    match env.similarResult (parseIntJS movieId) with
    | Except.ok rs =>
      let recs2 := recs ++ rs.take 5
      if 25 ≤ recs2.length then
        (recs2, calls + 1)
      else
        similarLoop env rest recs2 (calls + 1)
    | Except.error _ => similarLoop env rest recs (calls + 1)

/-- The complete network accumulation of getRecommendations: tiers A and B,
then tier C over at most the first 2 recently watched movies, only when the
accumulator is non-empty and recently watched movies were supplied. -/
def accumulateTiers (env : TMDBEnv) (watchedMovies : List String) :
    List TMDBMovie × Nat :=
  let ab := tierAB env
  if 0 < ab.1.length && 0 < watchedMovies.length then
    similarLoop env (watchedMovies.take 2) ab.1 ab.2
  else
    ab

/-- The de-duplication filter of getRecommendations: keep a movie when its id
is neither in the seen set nor excluded, adding kept ids to the seen set. -/
def dedupGo (excludeIds : List (Option Int)) :
    List TMDBMovie → List Int → List TMDBMovie
  | [], _ => []
  | m :: rest, seen =>
    if seen.contains m.id || isExcluded excludeIds m then
      dedupGo excludeIds rest seen
    else
      m :: dedupGo excludeIds rest (m.id :: seen)

/-- De-duplicate by id with first occurrence winning, drop excluded ids, and
cap at 20, exactly as the filter plus slice in getRecommendations. -/
def dedupFilter (excludeIds : List (Option Int)) (ms : List TMDBMovie) :
    List TMDBMovie :=
  (dedupGo excludeIds ms []).take 20

/-- Result of one getRecommendations run: the returned movies, the number of
provider calls issued, and the fallback cache afterwards. -/
structure RecResult where
  movies : List TMDBMovie
  providerCalls : Nat
  cache : Option (List TMDBMovie)
deriving DecidableEq

/-- getRecommendations from src/lib/tmdb.ts. With no API key it goes straight
to the bundled fallback filtered by the exclusion ids. Otherwise it
accumulates the network tiers, de-duplicates, filters and caps; if nothing
remains it falls back the same way. Every failure is caught internally, so a
list is always returned. -/
def getRecommendations (env : TMDBEnv) (cache : Option (List TMDBMovie))
    (excludeWatchedIds excludeBlockedIds : List String)
    (watchedMovies : List String) : RecResult :=
  let excludeIds := excludeIdsOf excludeWatchedIds excludeBlockedIds
  if !env.hasApiKey then
    let fb := loadFallbackMovies env cache
    { movies := fb.1.filter (fun m => !(isExcluded excludeIds m))
      providerCalls := 0
      cache := fb.2 }
  else
    let acc := accumulateTiers env watchedMovies
    let unique := dedupFilter excludeIds acc.1
    if 0 < unique.length then
      { movies := unique, providerCalls := acc.2, cache := cache }
    else
      let fb := loadFallbackMovies env cache
      { movies := fb.1.filter (fun m => !(isExcluded excludeIds m))
        providerCalls := acc.2
        cache := fb.2 }

/-- SimpleMovie from src/lib/recommendations.ts. -/
structure SimpleMovie where
  id : String
  title : String
  year : Option ℚ
  genre : Option String
  poster : Option String
  rating : ℚ
  synopsis : Option String
deriving DecidableEq

/-- maxPerCategory from getMixedRecommendations. -/
def maxPerCategory : Nat := 4

/-- The per-category loop of getMixedRecommendations: walk the category,
appending a movie when its id is new and fewer than maxPerCategory movies of
this category were taken. -/
def mixGo : List SimpleMovie → List SimpleMovie → List String → Nat →
    List SimpleMovie × List String
  | [], mixed, addedIds, _ => (mixed, addedIds)
  | m :: rest, mixed, addedIds, added =>
    if !(addedIds.contains m.id) && added < maxPerCategory then
      mixGo rest (mixed ++ [m]) (addedIds ++ [m.id]) (added + 1)
    else
      mixGo rest mixed addedIds added

/-- The mixing core of getMixedRecommendations from
src/lib/recommendations.ts, over the three category result lists returned by
the underlying fetchers: up to 4 from each of popular, trending and top
rated, skipping already chosen ids, capped at 10. -/
def getMixedRecommendations (popular trending topRated : List SimpleMovie) :
    List SimpleMovie :=
  let s1 := mixGo popular [] [] 0
  let s2 := mixGo trending s1.1 s1.2 0
  let s3 := mixGo topRated s2.1 s2.2 0
  s3.1.take 10
/-- Concrete attempt oracle: the first attempt fails on the network, later
attempts succeed. -/
def attemptsW : Nat → FetchOutcome :=
  fun n => if n = 0 then FetchOutcome.netErr else FetchOutcome.ok 7

/-- Concrete provider movie with id 1. -/
def tmdbMovieA : TMDBMovie :=
  { id := 1, title := "A", overview := "", poster_path := none
    backdrop_path := none, release_date := "", vote_average := 0
    vote_count := 0, genre_ids := [] }

/-- Concrete provider movie with id 2. -/
def tmdbMovieB : TMDBMovie :=
  { id := 2, title := "B", overview := "", poster_path := none
    backdrop_path := none, release_date := "", vote_average := 0
    vote_count := 0, genre_ids := [] }

/-- Environment where every network fetch fails, the bundled asset fetch
included. -/
def envC3 : TMDBEnv :=
  { hasApiKey := true, popularResult := Except.error ()
    trendingResult := Except.error ()
    similarResult := fun _ => Except.error ()
    fallbackFetch := Except.error () }

/-- Environment with no credential and a loadable two-movie bundled asset. -/
def envC4 : TMDBEnv :=
  { hasApiKey := false, popularResult := Except.error ()
    trendingResult := Except.error ()
    similarResult := fun _ => Except.error ()
    fallbackFetch := Except.ok [tmdbMovieA, tmdbMovieB] }

/-- Environment whose popular tier yields one movie and whose bundled asset
lists the same movie twice. -/
def envC5 : TMDBEnv :=
  { hasApiKey := true, popularResult := Except.ok [tmdbMovieA]
    trendingResult := Except.error ()
    similarResult := fun _ => Except.error ()
    fallbackFetch := Except.ok [tmdbMovieB, tmdbMovieB] }

/-- Environment whose three tiers each succeed with one shared movie. -/
def envC5b : TMDBEnv :=
  { hasApiKey := true, popularResult := Except.ok [tmdbMovieA, tmdbMovieB, tmdbMovieA]
    trendingResult := Except.ok [tmdbMovieB]
    similarResult := fun _ => Except.error ()
    fallbackFetch := Except.error () }

/-- Concrete movie input used to exercise the mutators on small inputs. -/
def movieDataW : MovieData :=
  { id := "7", title := "Heat", year := none, genre := none, posterUrl := none
    poster := none, userRating := none, rating := none }

/-- Concrete mutator sequence: rate a movie as watched, try to re-add it to
myList, then move it back to myList. -/
def opsW : List Op :=
  [Op.addWatched movieDataW "t1", Op.addMy movieDataW "t2", Op.moveMy "7" "t3"]

/-- Concrete movie input with a zero user rating and a non-zero movie
rating. -/
def movieDataW9 : MovieData :=
  { id := "9", title := "Solaris", year := none, genre := none
    posterUrl := none, poster := none, userRating := some 0, rating := some 3 }

/-- Concrete legacy movie with an explicit dateAdded. -/
def oldMovieW : OldMovie :=
  { id := "1", title := "Alpha", year := none, genre := none, poster := none
    rating := none, dateAdded := some "d1" }

/-- Concrete legacy movie without a dateAdded. -/
def oldMovieW2 : OldMovie :=
  { id := "2", title := "Beta", year := none, genre := none, poster := none
    rating := none, dateAdded := none }

/-- Concrete legacy lists object holding both a current-name list and its
legacy-name counterpart for each of the three pairs. -/
def oldListsW : OldLists :=
  { myList := some [oldMovieW], watchedList := some []
    blockedMovies := some ["9"], wantToWatch := some [oldMovieW2]
    watched := some [oldMovieW], blocked := some ["8"] }

theorem decodeStoredMovie_encode (m : StoredMovie) :
    decodeStoredMovie (encodeStoredMovie m) = some m := by
  obtain ⟨id, title, year, genre, poster, rating, dateAdded, dateWatched⟩ := m
  cases year <;> cases genre <;> cases poster <;> cases rating <;>
    cases dateWatched <;> rfl

theorem decodeMovieList_encode (ms : List StoredMovie) :
    decodeMovieList (ms.map encodeStoredMovie) = some ms := by
  induction ms with
  | nil => rfl
  | cons m rest ih => simp [decodeMovieList, decodeStoredMovie_encode, ih]

theorem decodeStrList_encode (ss : List String) :
    decodeStrList (ss.map JVal.jstr) = some ss := by
  induction ss with
  | nil => rfl
  | cons s rest ih => simp [decodeStrList, JVal.asStr, ih]

theorem decodeNumList_encode (qs : List ℚ) :
    decodeNumList (qs.map JVal.jnum) = some qs := by
  induction qs with
  | nil => rfl
  | cons q rest ih => simp [decodeNumList, JVal.asNum, ih]

theorem decodeStorage_encode (s : MovieStorage) :
    decodeStorage (encodeStorage s) = some s := by
  obtain ⟨⟨my, w, b⟩, prof, ver⟩ := s
  simp [encodeStorage, decodeStorage, getField, lookupField,
    decodeMovieList_encode, decodeStrList_encode, decodeNumList_encode,
    JVal.asArr, JVal.asStr]
theorem getField_encodeStorage_version (s : MovieStorage) :
    getField (encodeStorage s) "version" = some (JVal.jstr s.version) := rfl

theorem loadMovieData_encode (now : String) (s : MovieStorage)
    (hv : s.version = STORAGE_VERSION) :
    loadMovieData now (some (encodeStorage s)) = s := by
  simp [loadMovieData, getField_encodeStorage_version, hv, JVal.asStr,
    decodeStorage_encode]

theorem good_default : Good getDefaultStorage := by
  refine ⟨List.nodup_nil, List.nodup_nil, ?_, rfl⟩
  intro i hi
  simp [getDefaultStorage, idsOf] at hi

theorem good_loadMovieData (now : String) (cell : Cell) (h : GoodCell cell) :
    Good (loadMovieData now cell) := by
  rcases h with rfl | ⟨s, rfl, hs⟩
  · exact good_default
  · rw [loadMovieData_encode now s hs.2.2.2]
    exact hs
theorem any_id_iff (l : List StoredMovie) (v : String) :
    l.any (fun m => m.id == v) = true ↔ v ∈ idsOf l := by
  simp [List.any_eq_true, idsOf, List.mem_map]

theorem idsOf_append (l1 l2 : List StoredMovie) :
    idsOf (l1 ++ l2) = idsOf l1 ++ idsOf l2 := by
  simp [idsOf]

theorem idsOf_filter_subset (p : StoredMovie → Bool) (l : List StoredMovie) :
    idsOf (l.filter p) ⊆ idsOf l := by
  have h2 := (List.Sublist.map (fun m => m.id) (List.filter_sublist (p := p) l)).subset
  simpa [idsOf] using h2

theorem nodup_idsOf_filter (p : StoredMovie → Bool) (l : List StoredMovie)
    (h : (idsOf l).Nodup) : (idsOf (l.filter p)).Nodup := by
  have h2 := (List.Sublist.map (fun m => m.id) (List.filter_sublist (p := p) l)).nodup
  simp only [idsOf] at h ⊢
  exact h2 h

theorem notMem_idsOf_filter_self (l : List StoredMovie) (v : String) :
    v ∉ idsOf (l.filter (fun m => !(m.id == v))) := by
  simp [idsOf, List.mem_map, List.mem_filter]

theorem idsOf_replaceFirstMatching (p : StoredMovie → Bool) (a : StoredMovie)
    (l : List StoredMovie) (h : ∀ x, p x = true → x.id = a.id) :
    idsOf (replaceFirstMatching p a l) = idsOf l := by
  induction l with
  | nil => rfl
  | cons x xs ih =>
    by_cases hx : p x
    · simp only [replaceFirstMatching, hx, if_true, idsOf, List.map_cons]
      rw [h x hx]
    · simp only [replaceFirstMatching, hx, if_false, Bool.false_eq_true,
        idsOf, List.map_cons]
      rw [show (replaceFirstMatching p a xs).map (fun m => m.id) = idsOf (replaceFirstMatching p a xs) from rfl,
        ih]
      rfl

theorem removeFirstMatching_sublist (p : StoredMovie → Bool)
    (l : List StoredMovie) : List.Sublist (removeFirstMatching p l) l := by
  induction l with
  | nil => exact List.Sublist.refl []
  | cons x xs ih =>
    by_cases hx : p x
    · simp only [removeFirstMatching, hx, if_true]
      exact List.sublist_cons_self x xs
    · simp only [removeFirstMatching, hx, if_false, Bool.false_eq_true]
      exact List.Sublist.cons₂ x ih

theorem notMem_idsOf_removeFirstMatching (v : String) (l : List StoredMovie)
    (hnd : (idsOf l).Nodup) :
    v ∉ idsOf (removeFirstMatching (fun m => m.id == v) l) := by
  induction l with
  | nil => simp [removeFirstMatching, idsOf]
  | cons x xs ih =>
    simp only [idsOf, List.map_cons, List.nodup_cons] at hnd
    by_cases hx : (x.id == v) = true
    · simp only [removeFirstMatching, hx, if_true]
      rw [show x.id = v from beq_iff_eq.mp hx] at hnd
      exact hnd.1
    · simp only [removeFirstMatching, hx, if_false, Bool.false_eq_true, idsOf,
        List.map_cons, List.mem_cons]
      rintro (rfl | hmem)
      · exact hx (beq_iff_eq.mpr rfl)
      · exact ih hnd.2 hmem
theorem nodup_append_singleton {α : Type} (l : List α) (a : α) (h : l.Nodup)
    (ha : a ∉ l) : (l ++ [a]).Nodup := by
  simp [List.nodup_append, h, ha]

theorem good_insert_myList (s : MovieStorage) (movie : StoredMovie)
    (hg : Good s) (hmy : movie.id ∉ idsOf s.lists.myList)
    (hw : movie.id ∉ idsOf s.lists.watchedList) :
    Good { s with lists :=
        { s.lists with myList := s.lists.myList ++ [movie] } } := by
  obtain ⟨h1, h2, h3, h4⟩ := hg
  show (idsOf (s.lists.myList ++ [movie])).Nodup ∧
    (idsOf s.lists.watchedList).Nodup ∧
    (∀ i ∈ idsOf (s.lists.myList ++ [movie]), i ∉ idsOf s.lists.watchedList) ∧
    s.version = STORAGE_VERSION
  refine ⟨?_, h2, ?_, h4⟩
  · rw [idsOf_append]
    exact nodup_append_singleton _ _ h1 hmy
  · intro i hi
    rw [idsOf_append] at hi
    rcases List.mem_append.mp hi with hi | hi
    · exact h3 i hi
    · have hid : i = movie.id := by simpa [idsOf] using hi
      subst hid
      exact hw

theorem good_watched_replace (s : MovieStorage) (movie : StoredMovie)
    (hg : Good s) :
    Good { s with lists := { s.lists with
        myList := s.lists.myList.filter (fun m => !(m.id == movie.id)),
        watchedList := replaceFirstMatching (fun m => m.id == movie.id) movie
          s.lists.watchedList } } := by
  obtain ⟨h1, h2, h3, h4⟩ := hg
  have hrep : idsOf (replaceFirstMatching (fun m => m.id == movie.id) movie
      s.lists.watchedList) = idsOf s.lists.watchedList :=
    idsOf_replaceFirstMatching _ _ _ (fun x hx => beq_iff_eq.mp hx)
  show (idsOf (s.lists.myList.filter (fun m => !(m.id == movie.id)))).Nodup ∧
    (idsOf (replaceFirstMatching (fun m => m.id == movie.id) movie
      s.lists.watchedList)).Nodup ∧
    (∀ i ∈ idsOf (s.lists.myList.filter (fun m => !(m.id == movie.id))),
      i ∉ idsOf (replaceFirstMatching (fun m => m.id == movie.id) movie
        s.lists.watchedList)) ∧
    s.version = STORAGE_VERSION
  refine ⟨nodup_idsOf_filter _ _ h1, ?_, ?_, h4⟩
  · rw [hrep]; exact h2
  · intro i hi
    rw [hrep]
    exact h3 i (idsOf_filter_subset _ _ hi)

theorem good_watched_insert (s : MovieStorage) (movie : StoredMovie)
    (hg : Good s) (hw : movie.id ∉ idsOf s.lists.watchedList) :
    Good { s with lists := { s.lists with
        myList := s.lists.myList.filter (fun m => !(m.id == movie.id)),
        watchedList := movie :: s.lists.watchedList } } := by
  obtain ⟨h1, h2, h3, h4⟩ := hg
  show (idsOf (s.lists.myList.filter (fun m => !(m.id == movie.id)))).Nodup ∧
    (idsOf (movie :: s.lists.watchedList)).Nodup ∧
    (∀ i ∈ idsOf (s.lists.myList.filter (fun m => !(m.id == movie.id))),
      i ∉ idsOf (movie :: s.lists.watchedList)) ∧
    s.version = STORAGE_VERSION
  refine ⟨nodup_idsOf_filter _ _ h1, ?_, ?_, h4⟩
  · simp only [idsOf, List.map_cons, List.nodup_cons]
    exact ⟨hw, h2⟩
  · intro i hi
    simp only [idsOf, List.map_cons, List.mem_cons]
    rintro (hid | hmem)
    · subst hid
      exact notMem_idsOf_filter_self _ _ hi
    · exact h3 i (idsOf_filter_subset _ _ hi) hmem

theorem good_move_toMy (s : MovieStorage) (movie : StoredMovie)
    (movieId : String) (now : String) (hg : Good s)
    (hfind : s.lists.watchedList.find? (fun m => m.id == movieId) = some movie) :
    Good { s with lists := { s.lists with
        myList := s.lists.myList ++ [{ movie with dateAdded := now }],
        watchedList := removeFirstMatching (fun m => m.id == movieId)
          s.lists.watchedList } } := by
  obtain ⟨h1, h2, h3, h4⟩ := hg
  have hmemw : movie ∈ s.lists.watchedList := List.mem_of_find?_eq_some hfind
  have hps : (fun m => m.id == movieId) movie = true :=
    List.find?_some (p := fun (m : StoredMovie) => m.id == movieId) hfind
  have hid : movie.id = movieId := beq_iff_eq.mp hps
  have hidw : movie.id ∈ idsOf s.lists.watchedList :=
    List.mem_map.mpr ⟨movie, hmemw, rfl⟩
  have hidmy : movie.id ∉ idsOf s.lists.myList := fun hc => h3 _ hc hidw
  have hsub : idsOf (removeFirstMatching (fun m => m.id == movieId)
      s.lists.watchedList) ⊆ idsOf s.lists.watchedList := by
    have h5 := (List.Sublist.map (fun m => m.id)
      (removeFirstMatching_sublist (fun m => m.id == movieId)
        s.lists.watchedList)).subset
    simpa [idsOf] using h5
  have hnd : (idsOf (removeFirstMatching (fun m => m.id == movieId)
      s.lists.watchedList)).Nodup := by
    have h5 := (List.Sublist.map (fun m => m.id)
      (removeFirstMatching_sublist (fun m => m.id == movieId)
        s.lists.watchedList)).nodup
    simp only [idsOf] at h2 ⊢
    exact h5 h2
  show (idsOf (s.lists.myList ++ [{ movie with dateAdded := now }])).Nodup ∧
    (idsOf (removeFirstMatching (fun m => m.id == movieId)
      s.lists.watchedList)).Nodup ∧
    (∀ i ∈ idsOf (s.lists.myList ++ [{ movie with dateAdded := now }]),
      i ∉ idsOf (removeFirstMatching (fun m => m.id == movieId)
        s.lists.watchedList)) ∧
    s.version = STORAGE_VERSION
  refine ⟨?_, hnd, ?_, h4⟩
  · rw [idsOf_append]
    exact nodup_append_singleton _ _ h1 hidmy
  · intro i hi
    rw [idsOf_append] at hi
    rcases List.mem_append.mp hi with hi | hi
    · intro hc
      exact h3 i hi (hsub hc)
    · have hival : i = movie.id := by simpa [idsOf] using hi
      subst hival
      rw [hid]
      exact notMem_idsOf_removeFirstMatching movieId _ h2
theorem good_filter_myList (s : MovieStorage) (v : String) (hg : Good s) :
    Good { s with lists := { s.lists with
        myList := s.lists.myList.filter (fun m => !(m.id == v)) } } := by
  obtain ⟨h1, h2, h3, h4⟩ := hg
  show (idsOf (s.lists.myList.filter (fun m => !(m.id == v)))).Nodup ∧
    (idsOf s.lists.watchedList).Nodup ∧
    (∀ i ∈ idsOf (s.lists.myList.filter (fun m => !(m.id == v))),
      i ∉ idsOf s.lists.watchedList) ∧
    s.version = STORAGE_VERSION
  exact ⟨nodup_idsOf_filter _ _ h1, h2,
    fun i hi => h3 i (idsOf_filter_subset _ _ hi), h4⟩

theorem good_filter_watchedList (s : MovieStorage) (v : String) (hg : Good s) :
    Good { s with lists := { s.lists with
        watchedList := s.lists.watchedList.filter (fun m => !(m.id == v)) } } := by
  obtain ⟨h1, h2, h3, h4⟩ := hg
  show (idsOf s.lists.myList).Nodup ∧
    (idsOf (s.lists.watchedList.filter (fun m => !(m.id == v)))).Nodup ∧
    (∀ i ∈ idsOf s.lists.myList,
      i ∉ idsOf (s.lists.watchedList.filter (fun m => !(m.id == v)))) ∧
    s.version = STORAGE_VERSION
  exact ⟨h1, nodup_idsOf_filter _ _ h2,
    fun i hi hc => h3 i hi (idsOf_filter_subset _ _ hc), h4⟩

theorem goodCell_addToMyList (md : MovieData) (now : String) (cell : Cell)
    (h : GoodCell cell) : GoodCell (addToMyList md now cell).2 := by
  have hg := good_loadMovieData now cell h
  simp only [addToMyList, saveMovieData]
  split
  case isTrue hc =>
    rw [Bool.and_eq_true, Bool.not_eq_true', Bool.not_eq_true'] at hc
    right
    refine ⟨_, rfl, good_insert_myList _ _ hg ?_ ?_⟩
    · rw [← any_id_iff]; simp [hc.1]
    · rw [← any_id_iff]; simp [hc.2]
  case isFalse hc => exact h

theorem goodCell_addToWantToWatchList (md : MovieData) (now : String)
    (cell : Cell) (h : GoodCell cell) :
    GoodCell (addToWantToWatchList md now cell).2 := by
  have hg := good_loadMovieData now cell h
  simp only [addToWantToWatchList, saveMovieData]
  split
  case isTrue hc =>
    rw [Bool.and_eq_true, Bool.not_eq_true', Bool.not_eq_true'] at hc
    right
    refine ⟨_, rfl, good_insert_myList _ _ hg ?_ ?_⟩
    · rw [← any_id_iff]; simp [hc.1]
    · rw [← any_id_iff]; simp [hc.2]
  case isFalse hc => exact h

theorem goodCell_addToWatchedList (md : MovieData) (now : String) (cell : Cell)
    (h : GoodCell cell) : GoodCell (addToWatchedList md now cell).2 := by
  have hg := good_loadMovieData now cell h
  simp only [addToWatchedList, saveMovieData]
  right
  refine ⟨_, rfl, ?_⟩
  split
  case isTrue hw =>
    exact good_watched_replace _
      ({ createStoredMovie md now with dateWatched := some now }) hg
  case isFalse hw =>
    refine good_watched_insert _
      ({ createStoredMovie md now with dateWatched := some now }) hg ?_
    rw [← any_id_iff]
    simp only [Bool.not_eq_true] at hw
    simp [hw]

theorem goodCell_removeFromList (movieId : String) (lt : ListType)
    (now : String) (cell : Cell) (h : GoodCell cell) :
    GoodCell (removeFromList movieId lt now cell).2 := by
  have hg := good_loadMovieData now cell h
  cases lt
  · simp only [removeFromList, saveMovieData]
    right
    exact ⟨_, rfl, good_filter_myList _ _ hg⟩
  · simp only [removeFromList, saveMovieData]
    right
    exact ⟨_, rfl, good_filter_watchedList _ _ hg⟩

theorem goodCell_moveToMyList (movieId : String) (now : String) (cell : Cell)
    (h : GoodCell cell) : GoodCell (moveToMyList movieId now cell).2 := by
  have hg := good_loadMovieData now cell h
  simp only [moveToMyList, saveMovieData]
  split
  case h_1 movie hfind =>
    right
    exact ⟨_, rfl, good_move_toMy _ _ _ _ hg hfind⟩
  case h_2 hfind => exact h
theorem version_loadMovieData (now : String) (cell : Cell) (h : VCell cell) :
    (loadMovieData now cell).version = STORAGE_VERSION := by
  rcases h with rfl | ⟨s, rfl, hs⟩
  · rfl
  · rw [loadMovieData_encode now s hs]
    exact hs

theorem vcell_applyOp (o : Op) (cell : Cell) (h : VCell cell) :
    VCell (applyOp o cell).2 := by
  cases o with
  | addMy md now =>
    simp only [applyOp, addToMyList, saveMovieData]
    split
    · right; exact ⟨_, rfl, version_loadMovieData now cell h⟩
    · exact h
  | addWant md now =>
    simp only [applyOp, addToWantToWatchList, saveMovieData]
    split
    · right; exact ⟨_, rfl, version_loadMovieData now cell h⟩
    · exact h
  | addWatched md now =>
    simp only [applyOp, addToWatchedList, saveMovieData]
    right
    exact ⟨_, rfl, version_loadMovieData now cell h⟩
  | removeFrom movieId lt now =>
    cases lt
    · simp only [applyOp, removeFromList, saveMovieData]
      right
      exact ⟨_, rfl, version_loadMovieData now cell h⟩
    · simp only [applyOp, removeFromList, saveMovieData]
      right
      exact ⟨_, rfl, version_loadMovieData now cell h⟩
  | moveMy movieId now =>
    simp only [applyOp, moveToMyList, saveMovieData]
    split
    · right; exact ⟨_, rfl, version_loadMovieData now cell h⟩
    · exact h
  | moveWant movieId now =>
    simp only [applyOp, moveToWantToWatchList, saveMovieData]
    split
    · right; exact ⟨_, rfl, version_loadMovieData now cell h⟩
    · exact h
  | reorder newOrder now =>
    simp only [applyOp, reorderMyList, saveMovieData]
    right
    exact ⟨_, rfl, version_loadMovieData now cell h⟩
  | block movieId now =>
    simp only [applyOp, blockMovie, saveMovieData]
    split
    · right; exact ⟨_, rfl, version_loadMovieData now cell h⟩
    · exact h

theorem vcell_runOps (ops : List Op) (cell : Cell) (h : VCell cell) :
    VCell (runOps ops cell) := by
  induction ops generalizing cell with
  | nil => exact h
  | cons o os ih => exact ih _ (vcell_applyOp o cell h)

theorem goodCell_applyOp (o : Op) (cell : Cell) (h : GoodCell cell)
    (ho : o.isC1 = true) : GoodCell (applyOp o cell).2 := by
  cases o with
  | addMy md now => exact goodCell_addToMyList md now cell h
  | addWant md now => exact goodCell_addToWantToWatchList md now cell h
  | addWatched md now => exact goodCell_addToWatchedList md now cell h
  | removeFrom movieId lt now => exact goodCell_removeFromList movieId lt now cell h
  | moveMy movieId now => exact goodCell_moveToMyList movieId now cell h
  | moveWant movieId now => simp [Op.isC1] at ho
  | reorder newOrder now => simp [Op.isC1] at ho
  | block movieId now => simp [Op.isC1] at ho

theorem goodCell_runOps (ops : List Op) (cell : Cell) (h : GoodCell cell)
    (ho : ∀ o ∈ ops, o.isC1 = true) : GoodCell (runOps ops cell) := by
  induction ops generalizing cell with
  | nil => exact h
  | cons o os ih =>
    exact ih _ (goodCell_applyOp o cell h (ho o (List.mem_cons_self o os)))
      (fun o2 h2 => ho o2 (List.mem_cons_of_mem o h2))

/-- C1: starting from the all-empty default store, after any finite sequence
of calls to addToMyList, addToWantToWatchList, addToWatchedList,
removeFromList and moveToMyList, no movie id appears in both myList and
watchedList of the resulting store. -/
theorem myList_watchedList_exclusive (ops : List Op) (now : String)
    (h : ∀ o ∈ ops, o.isC1 = true) :
    ∀ i ∈ idsOf (loadMovieData now (runOps ops none)).lists.myList,
      i ∉ idsOf (loadMovieData now (runOps ops none)).lists.watchedList := by
  have hg : GoodCell (runOps ops none) :=
    goodCell_runOps ops none (Or.inl rfl) h
  exact (good_loadMovieData now _ hg).2.2.1

/-- Witness for C1 at a concrete mutator sequence. -/
theorem myList_watchedList_exclusive_witness :
    (∀ o ∈ opsW, o.isC1 = true) ∧
    (∀ i ∈ idsOf (loadMovieData "t4" (runOps opsW none)).lists.myList,
      i ∉ idsOf (loadMovieData "t4" (runOps opsW none)).lists.watchedList) :=
  ⟨by decide, myList_watchedList_exclusive opsW "t4" (by decide)⟩

/-- C7: exportData followed by importData reproduces an equal store on the
next load, and importData returns true, for every store reachable from the
empty cell through the public mutators. -/
theorem export_import_roundtrip (ops : List Op) (now : String) :
    (importData (exportData now (runOps ops none))).1 = true ∧
    loadMovieData now (importData (exportData now (runOps ops none))).2 =
      loadMovieData now (runOps ops none) := by
  have hv : VCell (runOps ops none) := vcell_runOps ops none (Or.inl rfl)
  refine ⟨rfl, ?_⟩
  simp only [importData, exportData]
  exact loadMovieData_encode now _ (version_loadMovieData now _ hv)
/-- C9: a zero userRating is falsy in the truthy-or of createStoredMovie, so
the public movie rating is stored instead of the user zero; consequently
addToMyList on the empty store records that rating. -/
theorem zero_userRating_replaced (md : MovieData) (now : String) (q : ℚ)
    (h0 : md.userRating = some 0) (hr : md.rating = some q) (_hq : q ≠ 0) :
    (createStoredMovie md now).rating = some q ∧
    (addToMyList md now none).1.lists.myList.map (fun m => m.rating) = [some q] := by
  have h1 : (createStoredMovie md now).rating = some q := by
    simp [createStoredMovie, jsOrNum, h0, hr]
  refine ⟨h1, ?_⟩
  have h2 : addToMyList md now none =
      ({ getDefaultStorage with lists := { getDefaultStorage.lists with
          myList := [createStoredMovie md now] } },
        (saveMovieData { getDefaultStorage with lists := { getDefaultStorage.lists with
          myList := [createStoredMovie md now] } }).2) := by
    simp [addToMyList, loadMovieData, getDefaultStorage]
  rw [h2]
  simp [getDefaultStorage, h1]

/-- Witness for C9 at a concrete movie input. -/
theorem zero_userRating_replaced_witness :
    (movieDataW9.userRating = some 0 ∧ movieDataW9.rating = some 3 ∧ (3 : ℚ) ≠ 0) ∧
    ((createStoredMovie movieDataW9 "t1").rating = some 3 ∧
      (addToMyList movieDataW9 "t1" none).1.lists.myList.map (fun m => m.rating) = [some 3]) :=
  ⟨⟨rfl, rfl, by norm_num⟩,
    zero_userRating_replaced movieDataW9 "t1" 3 rfl rfl (by norm_num)⟩

/-- C10: when the legacy data handed to migration contains both a
current-name list and its legacy-name counterpart, the migrated store keeps
only the mapped legacy-name entries, because the legacy-name field is copied
second and overwrites the current-name copy. -/
theorem migration_legacy_overwrites (old : OldData) (l : OldLists)
    (now : String) (hl : old.lists = some l) :
    (∀ a b, l.myList = some a → l.wantToWatch = some b →
      (migrateFromOldVersion old now).lists.myList = b.map (oldToStored now)) ∧
    (∀ a b, l.watchedList = some a → l.watched = some b →
      (migrateFromOldVersion old now).lists.watchedList = b.map (oldToStored now)) ∧
    (∀ a b, l.blockedMovies = some a → l.blocked = some b →
      (migrateFromOldVersion old now).lists.blockedMovies = b) := by
  refine ⟨?_, ?_, ?_⟩ <;> intro a b h1 h2 <;>
    simp [migrateFromOldVersion, hl, h1, h2]

/-- Witness for C10 at a concrete legacy record holding both field names. -/
theorem migration_legacy_overwrites_witness :
    (OldData.mk (some oldListsW)).lists = some oldListsW ∧
    oldListsW.myList = some [oldMovieW] ∧
    oldListsW.wantToWatch = some [oldMovieW2] ∧
    (migrateFromOldVersion (OldData.mk (some oldListsW)) "tn").lists.myList =
      [oldMovieW2].map (oldToStored "tn") :=
  ⟨rfl, rfl, rfl,
    (migration_legacy_overwrites (OldData.mk (some oldListsW)) oldListsW "tn"
      rfl).1 [oldMovieW] [oldMovieW2] rfl rfl⟩
/-- C6: addToMyList inserts a fresh StoredMovie onto myList and re-saves only
when its id is present in neither myList nor watchedList, returning the
store unchanged otherwise; addToWatchedList removes any entry of that id
from myList first, stamps a watched timestamp on the stored movie, adds it
as a new entry only when the id was absent from watchedList (overwriting the
existing entry in place otherwise), and always re-saves. -/
theorem addToList_insert_semantics (md : MovieData) (now : String) (cell : Cell) :
    (addToMyList md now cell =
      if (createStoredMovie md now).id ∈ idsOf (loadMovieData now cell).lists.myList ∨
          (createStoredMovie md now).id ∈ idsOf (loadMovieData now cell).lists.watchedList then
        (loadMovieData now cell, cell)
      else
        ({ loadMovieData now cell with lists := { (loadMovieData now cell).lists with
            myList := (loadMovieData now cell).lists.myList ++ [createStoredMovie md now] } },
          some (encodeStorage { loadMovieData now cell with lists := { (loadMovieData now cell).lists with
            myList := (loadMovieData now cell).lists.myList ++ [createStoredMovie md now] } }))) ∧
    ((addToWatchedList md now cell).1.lists.myList =
      (loadMovieData now cell).lists.myList.filter
        (fun m => !(m.id == (createStoredMovie md now).id))) ∧
    ((addToWatchedList md now cell).1.lists.watchedList =
      if (createStoredMovie md now).id ∈ idsOf (loadMovieData now cell).lists.watchedList then
        replaceFirstMatching (fun m => m.id == (createStoredMovie md now).id)
          { createStoredMovie md now with dateWatched := some now }
          (loadMovieData now cell).lists.watchedList
      else
        { createStoredMovie md now with dateWatched := some now }
          :: (loadMovieData now cell).lists.watchedList) ∧
    ((addToWatchedList md now cell).2 =
      some (encodeStorage (addToWatchedList md now cell).1)) := by
  refine ⟨?_, rfl, ?_, rfl⟩
  · by_cases hc : (createStoredMovie md now).id ∈ idsOf (loadMovieData now cell).lists.myList ∨
        (createStoredMovie md now).id ∈ idsOf (loadMovieData now cell).lists.watchedList
    · rw [if_pos hc]
      rcases hc with hc | hc
      · have ha : (loadMovieData now cell).lists.myList.any
            (fun m => m.id == (createStoredMovie md now).id) = true :=
          (any_id_iff _ _).mpr hc
        simp [addToMyList, ha]
      · have hb : (loadMovieData now cell).lists.watchedList.any
            (fun m => m.id == (createStoredMovie md now).id) = true :=
          (any_id_iff _ _).mpr hc
        simp [addToMyList, hb]
    · rw [if_neg hc]
      rw [not_or] at hc
      have ha : ¬ ((loadMovieData now cell).lists.myList.any
          (fun m => m.id == (createStoredMovie md now).id) = true) :=
        fun hx => hc.1 ((any_id_iff _ _).mp hx)
      have hb : ¬ ((loadMovieData now cell).lists.watchedList.any
          (fun m => m.id == (createStoredMovie md now).id) = true) :=
        fun hx => hc.2 ((any_id_iff _ _).mp hx)
      simp [addToMyList, saveMovieData, ha, hb]
  · by_cases hw : (createStoredMovie md now).id ∈ idsOf (loadMovieData now cell).lists.watchedList
    · rw [if_pos hw]
      have hb : (loadMovieData now cell).lists.watchedList.any
          (fun m => m.id == (createStoredMovie md now).id) = true :=
        (any_id_iff _ _).mpr hw
      simp [addToWatchedList, hb]
    · rw [if_neg hw]
      have hb : ¬ ((loadMovieData now cell).lists.watchedList.any
          (fun m => m.id == (createStoredMovie md now).id) = true) :=
        fun hx => hw ((any_id_iff _ _).mp hx)
      simp [addToWatchedList, hb]
/-- C2 counterexample: with 2 retries remaining and an attempt failing by
timeout, fetchWithRetry surfaces the error at once, with no 500 ms backoff
and no recursive call, because the timeout abort sets the signal the retry
guard tests. -/
theorem timeout_not_retried_counterexample :
    fetchWithRetry (fun _ => FetchOutcome.timeout) 0 2 =
      (Except.error FetchOutcome.timeout, []) ∧
    (fetchWithRetry (fun _ => FetchOutcome.timeout) 0 2).2.length = 0 :=
  ⟨rfl, rfl⟩

/-- C2 amended: for positive remaining retries, a failing attempt that did
not abort (network failure or non-success status) is followed by one
retryDelay backoff and a recursive call with one fewer retry, while a
timeout (abort) failure is surfaced immediately without retry. -/
theorem fetch_retry_policy (attempts : Nat → FetchOutcome) (i r : Nat)
    (hr : 0 < r) (hf : isFailure (attempts i) = true) :
    (isAbortedFailure (attempts i) = false →
      fetchWithRetry attempts i r =
        ((fetchWithRetry attempts (i + 1) (r - 1)).1,
          retryDelay :: (fetchWithRetry attempts (i + 1) (r - 1)).2)) ∧
    (isAbortedFailure (attempts i) = true →
      fetchWithRetry attempts i r = (Except.error (attempts i), [])) := by
  obtain ⟨r2, rfl⟩ : ∃ r2, r = r2 + 1 := ⟨r - 1, (Nat.succ_pred_eq_of_pos hr).symm⟩
  constructor
  · intro hab
    cases he : attempts i with
    | ok v => rw [he] at hf; simp [isFailure] at hf
    | httpErr st => simp [fetchWithRetry, he, isAbortedFailure]
    | netErr => simp [fetchWithRetry, he, isAbortedFailure]
    | timeout => rw [he] at hab; simp [isAbortedFailure] at hab
  · intro hab
    cases he : attempts i with
    | ok v => rw [he] at hf; simp [isFailure] at hf
    | httpErr st => rw [he] at hab; simp [isAbortedFailure] at hab
    | netErr => rw [he] at hab; simp [isAbortedFailure] at hab
    | timeout => simp [fetchWithRetry, he, isAbortedFailure]

/-- Witness for the amended C2: one network failure with 2 retries remaining
produces exactly one backoff and a recursive call. -/
theorem fetch_retry_policy_witness :
    (0 < 2 ∧ isFailure (attemptsW 0) = true) ∧
    (isAbortedFailure (attemptsW 0) = false →
      fetchWithRetry attemptsW 0 2 =
        ((fetchWithRetry attemptsW (0 + 1) (2 - 1)).1,
          retryDelay :: (fetchWithRetry attemptsW (0 + 1) (2 - 1)).2)) :=
  ⟨⟨by decide, by decide⟩,
    (fetch_retry_policy attemptsW 0 2 (by decide) (by decide)).1⟩
/-- C3: when every network fetch fails, the bundled asset fetch included,
getRecommendations on a fresh process still returns the non-empty hardcoded
two-movie list; every failure is consumed internally, whichever way the
credential is configured. -/
theorem all_fail_returns_fallback (env : TMDBEnv)
    (hp : env.popularResult = Except.error ())
    (ht : env.trendingResult = Except.error ())
    (hf : env.fallbackFetch = Except.error ()) :
    (getRecommendations env none [] [] []).movies = hardcodedFallback ∧
    (getRecommendations env none [] [] []).movies ≠ [] := by
  have hmain : (getRecommendations env none [] [] []).movies = hardcodedFallback := by
    cases hk : env.hasApiKey
    · simp [getRecommendations, hk, loadFallbackMovies, hf, excludeIdsOf,
        isExcluded]
    · simp [getRecommendations, hk, accumulateTiers, tierAB, hp, ht,
        dedupFilter, dedupGo, loadFallbackMovies, hf, excludeIdsOf, isExcluded]
  refine ⟨hmain, ?_⟩
  rw [hmain]
  simp [hardcodedFallback]

/-- Witness for C3 at a concrete all-failing environment. -/
theorem all_fail_returns_fallback_witness :
    (envC3.popularResult = Except.error () ∧
      envC3.trendingResult = Except.error () ∧
      envC3.fallbackFetch = Except.error ()) ∧
    ((getRecommendations envC3 none [] [] []).movies = hardcodedFallback ∧
      (getRecommendations envC3 none [] [] []).movies ≠ []) :=
  ⟨⟨rfl, rfl, rfl⟩, all_fail_returns_fallback envC3 rfl rfl rfl⟩

/-- C4: with no credential configured, getRecommendations issues zero
provider calls and returns exactly the freshly loaded bundled dataset with
every movie whose id lies in the union of the supplied watched and blocked
ids, coerced to numbers, removed. -/
theorem no_key_zero_calls_bundled (env : TMDBEnv) (d : List TMDBMovie)
    (excludeWatchedIds excludeBlockedIds : List String)
    (hk : env.hasApiKey = false) (hf : env.fallbackFetch = Except.ok d) :
    (getRecommendations env none excludeWatchedIds excludeBlockedIds
      []).providerCalls = 0 ∧
    (getRecommendations env none excludeWatchedIds excludeBlockedIds
      []).movies =
      d.filter (fun m =>
        !(((excludeWatchedIds ++ excludeBlockedIds).map parseIntJS).contains
          (some m.id))) := by
  constructor
  · simp [getRecommendations, hk]
  · simp [getRecommendations, hk, loadFallbackMovies, hf, excludeIdsOf,
      isExcluded]

/-- Witness for C4 at a concrete credential-free environment. -/
theorem no_key_zero_calls_bundled_witness :
    (envC4.hasApiKey = false ∧
      envC4.fallbackFetch = Except.ok [tmdbMovieA, tmdbMovieB]) ∧
    ((getRecommendations envC4 none ["1"] [] []).providerCalls = 0 ∧
      (getRecommendations envC4 none ["1"] [] []).movies =
        [tmdbMovieA, tmdbMovieB].filter (fun m =>
          !(((["1"] ++ []).map parseIntJS).contains (some m.id)))) :=
  ⟨⟨rfl, rfl⟩,
    no_key_zero_calls_bundled envC4 [tmdbMovieA, tmdbMovieB] ["1"] [] rfl rfl⟩
theorem contains_true_iff {α : Type} [BEq α] [LawfulBEq α] (l : List α)
    (a : α) : l.contains a = true ↔ a ∈ l := by
  simp [List.contains]

theorem dedupGo_mem (ex : List (Option Int)) :
    ∀ (ms : List TMDBMovie) (seen : List Int) (m : TMDBMovie),
      m ∈ dedupGo ex ms seen →
      m.id ∉ seen ∧ isExcluded ex m = false ∧
        ms.find? (fun y => y.id == m.id) = some m := by
  intro ms
  induction ms with
  | nil => intro seen m hm; simp [dedupGo] at hm
  | cons m0 rest ih =>
    intro seen m hm
    by_cases hc : (seen.contains m0.id || isExcluded ex m0) = true
    · rw [dedupGo, if_pos hc] at hm
      obtain ⟨h1, h2, h3⟩ := ih seen m hm
      refine ⟨h1, h2, ?_⟩
      have hne : ¬ ((fun y => y.id == m.id) m0 = true) := by
        intro hx
        have hid : m0.id = m.id := beq_iff_eq.mp hx
        rw [Bool.or_eq_true] at hc
        rcases hc with hc | hc
        · rw [hid] at hc
          exact h1 ((contains_true_iff _ _).mp hc)
        · have : isExcluded ex m0 = isExcluded ex m := by
            simp [isExcluded, hid]
          rw [this, h2] at hc
          cases hc
      rw [List.find?_cons_of_neg rest hne]
      exact h3
    · rw [dedupGo, if_neg hc] at hm
      rw [Bool.or_eq_true, not_or] at hc
      rcases List.mem_cons.mp hm with rfl | hm2
      · refine ⟨fun hx => hc.1 ((contains_true_iff _ _).mpr hx), ?_, ?_⟩
        · rw [← Bool.not_eq_true]
          exact hc.2
        · exact List.find?_cons_of_pos rest (beq_iff_eq.mpr rfl)
      · obtain ⟨h1, h2, h3⟩ := ih (m0.id :: seen) m hm2
        have hne : m0.id ≠ m.id := by
          intro hid
          exact h1 (hid ▸ List.mem_cons_self m0.id seen)
        refine ⟨fun hx => h1 (List.mem_cons_of_mem _ hx), h2, ?_⟩
        rw [List.find?_cons_of_neg rest (fun hx => hne (beq_iff_eq.mp hx))]
        exact h3

theorem dedupGo_nodup (ex : List (Option Int)) :
    ∀ (ms : List TMDBMovie) (seen : List Int),
      ((dedupGo ex ms seen).map (fun m => m.id)).Nodup := by
  intro ms
  induction ms with
  | nil => intro seen; simp [dedupGo]
  | cons m0 rest ih =>
    intro seen
    by_cases hc : (seen.contains m0.id || isExcluded ex m0) = true
    · rw [dedupGo, if_pos hc]
      exact ih seen
    · rw [dedupGo, if_neg hc]
      simp only [List.map_cons, List.nodup_cons]
      refine ⟨?_, ih _⟩
      intro hmem
      rw [List.mem_map] at hmem
      obtain ⟨m, hm, hid⟩ := hmem
      have h2 := (dedupGo_mem ex rest (m0.id :: seen) m hm).1
      rw [hid] at h2
      exact h2 (List.mem_cons_self _ _)

theorem dedupGo_ne_nil (ex : List (Option Int)) :
    ∀ (ms : List TMDBMovie) (seen : List Int) (m : TMDBMovie), m ∈ ms →
      isExcluded ex m = false → m.id ∉ seen → dedupGo ex ms seen ≠ [] := by
  intro ms
  induction ms with
  | nil => intro seen m hm; simp at hm
  | cons m0 rest ih =>
    intro seen m hm hex hseen
    by_cases hc : (seen.contains m0.id || isExcluded ex m0) = true
    · rw [dedupGo, if_pos hc]
      rcases List.mem_cons.mp hm with rfl | hm2
      · exfalso
        rw [Bool.or_eq_true] at hc
        rcases hc with hc | hc
        · exact hseen ((contains_true_iff _ _).mp hc)
        · rw [hex] at hc; cases hc
      · exact ih seen m hm2 hex hseen
    · rw [dedupGo, if_neg hc]
      simp
/-- C5 amended: for every run with a configured credential whose network
tiers accumulate at least one movie outside the exclusion set, the returned
list is the de-duplicated network result: it has no two entries with the
same id, each entry is the first accumulator occurrence of its id in the
tier order popular, trending, similar, no entry is excluded, and at most 20
items are returned. -/
theorem network_result_dedup_filter_cap (env : TMDBEnv)
    (cache : Option (List TMDBMovie))
    (excludeWatchedIds excludeBlockedIds : List String)
    (watchedMovies : List String)
    (hk : env.hasApiKey = true)
    (hsome : ∃ m ∈ (accumulateTiers env watchedMovies).1,
      isExcluded (excludeIdsOf excludeWatchedIds excludeBlockedIds) m = false) :
    (((getRecommendations env cache excludeWatchedIds excludeBlockedIds
        watchedMovies).movies.map (fun m => m.id)).Nodup) ∧
    (∀ m ∈ (getRecommendations env cache excludeWatchedIds excludeBlockedIds
        watchedMovies).movies,
      isExcluded (excludeIdsOf excludeWatchedIds excludeBlockedIds) m = false) ∧
    (∀ m ∈ (getRecommendations env cache excludeWatchedIds excludeBlockedIds
        watchedMovies).movies,
      (accumulateTiers env watchedMovies).1.find? (fun y => y.id == m.id) =
        some m) ∧
    (getRecommendations env cache excludeWatchedIds excludeBlockedIds
      watchedMovies).movies.length ≤ 20 := by
  obtain ⟨m, hm, hex⟩ := hsome
  have hne : dedupGo (excludeIdsOf excludeWatchedIds excludeBlockedIds)
      (accumulateTiers env watchedMovies).1 [] ≠ [] :=
    dedupGo_ne_nil _ _ [] m hm hex (by simp)
  have hlen : 0 < (dedupFilter (excludeIdsOf excludeWatchedIds excludeBlockedIds)
      (accumulateTiers env watchedMovies).1).length := by
    rw [dedupFilter]
    rcases hgo : dedupGo (excludeIdsOf excludeWatchedIds excludeBlockedIds)
        (accumulateTiers env watchedMovies).1 [] with _ | ⟨x, xs⟩
    · exact absurd hgo hne
    · simp
  have hres : (getRecommendations env cache excludeWatchedIds excludeBlockedIds
      watchedMovies).movies =
      dedupFilter (excludeIdsOf excludeWatchedIds excludeBlockedIds)
        (accumulateTiers env watchedMovies).1 := by
    simp [getRecommendations, hk, hlen]
  refine ⟨?_, ?_, ?_, ?_⟩
  · rw [hres, dedupFilter]
    exact (List.Sublist.map (fun (m : TMDBMovie) => m.id)
      (List.take_sublist 20 (dedupGo
        (excludeIdsOf excludeWatchedIds excludeBlockedIds)
        (accumulateTiers env watchedMovies).1 []))).nodup
      (dedupGo_nodup _ _ [])
  · intro m2 hm2
    rw [hres, dedupFilter] at hm2
    exact (dedupGo_mem _ _ [] m2 ((List.take_sublist 20 _).subset hm2)).2.1
  · intro m2 hm2
    rw [hres, dedupFilter] at hm2
    exact (dedupGo_mem _ _ [] m2 ((List.take_sublist 20 _).subset hm2)).2.2
  · rw [hres, dedupFilter]
    exact List.length_take_le 20 _

/-- Witness for the amended C5: a run whose tiers return overlapping pages
produces a de-duplicated, capped, exclusion-free list. -/
theorem network_result_dedup_filter_cap_witness :
    (envC5b.hasApiKey = true ∧
      (∃ m ∈ (accumulateTiers envC5b []).1,
        isExcluded (excludeIdsOf [] []) m = false)) ∧
    ((((getRecommendations envC5b none [] [] []).movies.map
        (fun m => m.id)).Nodup) ∧
      (∀ m ∈ (getRecommendations envC5b none [] [] []).movies,
        isExcluded (excludeIdsOf [] []) m = false) ∧
      (∀ m ∈ (getRecommendations envC5b none [] [] []).movies,
        (accumulateTiers envC5b []).1.find? (fun y => y.id == m.id) = some m) ∧
      (getRecommendations envC5b none [] [] []).movies.length ≤ 20) :=
  ⟨⟨rfl, by decide⟩,
    network_result_dedup_filter_cap envC5b none [] [] [] rfl (by decide)⟩

/-- C5 counterexample: a run whose network tiers accumulate one movie that
the exclusion set removes falls through to the bundled fallback, which is
only exclusion-filtered; with a bundled asset that lists one movie twice,
the returned list carries a duplicate id although the accumulator was
non-empty. -/
theorem network_nonempty_dedup_counterexample :
    (accumulateTiers envC5 []).1 ≠ [] ∧
    ¬ (((getRecommendations envC5 none ["1"] [] []).movies.map
        (fun m => m.id)).Nodup) := by
  constructor
  · decide
  · decide
theorem mixGo_invariant :
    ∀ (cat mixed : List SimpleMovie) (addedIds : List String) (added : Nat),
      ((mixed.map (fun m => m.id)).Nodup ∧
        ∀ v ∈ mixed.map (fun m => m.id), v ∈ addedIds) →
      (((mixGo cat mixed addedIds added).1.map (fun m => m.id)).Nodup ∧
        ∀ v ∈ (mixGo cat mixed addedIds added).1.map (fun m => m.id),
          v ∈ (mixGo cat mixed addedIds added).2) := by
  intro cat
  induction cat with
  | nil => intro mixed addedIds added h; exact h
  | cons m rest ih =>
    intro mixed addedIds added h
    rw [mixGo]
    split
    case isTrue hc =>
      apply ih
      rw [Bool.and_eq_true, Bool.not_eq_true'] at hc
      have hnotin : m.id ∉ addedIds := by
        intro hmem
        rw [(contains_true_iff addedIds m.id).mpr hmem] at hc
        cases hc.1
      constructor
      · rw [List.map_append]
        exact nodup_append_singleton _ _ h.1
          (fun hx => hnotin (h.2 m.id hx))
      · intro v hv
        rw [List.map_append, List.mem_append] at hv
        rcases hv with hv | hv
        · exact List.mem_append_left _ (h.2 v hv)
        · simp only [List.map_cons, List.map_nil, List.mem_singleton] at hv
          subst hv
          exact List.mem_append_right _ (List.mem_singleton_self m.id)
    case isFalse hc => exact ih mixed addedIds added h

/-- C8: for every triple of category result lists returned by the underlying
fetchers, getMixedRecommendations returns at most 10 entries and never two
entries with the same id, even when the tiers overlap. -/
theorem mixed_capped_nodup (popular trending topRated : List SimpleMovie) :
    (getMixedRecommendations popular trending topRated).length ≤ 10 ∧
    ((getMixedRecommendations popular trending topRated).map
      (fun m => m.id)).Nodup := by
  constructor
  · exact List.length_take_le 10 _
  · have h1 := mixGo_invariant popular [] [] 0 (by simp)
    have h2 := mixGo_invariant trending (mixGo popular [] [] 0).1
      (mixGo popular [] [] 0).2 0 h1
    have h3 := mixGo_invariant topRated
      (mixGo trending (mixGo popular [] [] 0).1 (mixGo popular [] [] 0).2 0).1
      (mixGo trending (mixGo popular [] [] 0).1 (mixGo popular [] [] 0).2 0).2
      0 h2
    exact (List.Sublist.map (fun (m : SimpleMovie) => m.id)
      (List.take_sublist 10 _)).nodup h3.1
